import Mathlib

/-!
# Verification of the kali_bot presence store and report engine

Shallow embedding of `src/kali_bot.py`: the SQLite-backed member store
(`upsert_user`, `mark_left`, `fetch_all_members`), the report engine
(`generate_report`, lines 212-249), the threshold-argument parsing in
`cmd_cheak` (lines 284-293) and the CSV export rows of `cmd_export`
(lines 359-361).

The `members` table (lines 81-93) has PRIMARY KEY (chat_id, user_id); we
model it as an insertion-ordered list of rows in which the key is meant to
be unique, and `INSERT ... ON CONFLICT(chat_id, user_id) DO UPDATE` as an
in-place replacement of the first row with the same key (SQLite keeps the
conflicting row's position) or an append when the key is new.

Python integers are modelled by `Int` (they are unbounded), SQLite INTEGER
flags by `Int` holding the stored 0/1 value, nullable `last_seen` by
`Option Int`, and Python `None`-able objects by `Option`.
-/

/-- A Pyrogram `User` as read by `upsert_user` (id, username, first_name,
last_name, is_bot, is_deleted; the string fields may be `None`). -/
structure User where
  id : Int
  username : Option String
  first_name : Option String
  last_name : Option String
  is_bot : Bool
  is_deleted : Bool
deriving DecidableEq

/-- One row of the `members` table (lines 81-93).  `is_bot` / `is_deleted`
hold the stored INTEGER (0/1); `last_seen` is nullable. -/
structure Row where
  chat_id : Int
  user_id : Int
  username : String
  first_name : String
  last_name : String
  is_bot : Int
  is_deleted : Int
  last_seen : Option Int
deriving DecidableEq

/-- The member dict built by `fetch_all_members` (lines 137-147):
flags converted with `bool(...)`. -/
structure Member where
  user_id : Int
  username : String
  first_name : String
  last_name : String
  is_bot : Bool
  is_deleted : Bool
  last_seen : Option Int
deriving DecidableEq

/-- The composite PRIMARY KEY (chat_id, user_id) of a row. -/
def rowKey (r : Row) : Int × Int := (r.chat_id, r.user_id)

/-- The keys of a store state, in storage order. -/
def dbKeys (db : List Row) : List (Int × Int) := db.map rowKey

/-- The PRIMARY KEY constraint of the `members` table: no two rows share a
(chat_id, user_id) key. -/
def dbKeysNodup (db : List Row) : Prop := (dbKeys db).Nodup

/-- `INSERT ... ON CONFLICT(chat_id, user_id) DO UPDATE SET ...` where every
column is set from `excluded` (lines 111-121): replace the row with the same
key in place, or append the new row. -/
def upsertRow (r : Row) : List Row → List Row
  | [] => [r]
  | x :: xs =>
    if x.chat_id = r.chat_id ∧ x.user_id = r.user_id then r :: xs
    else x :: upsertRow r xs

/-- The row written by `upsert_user` (lines 100-121): string fields default
to `""` via `or ""`, the flags are stored as 1/0, `last_seen` is the
supplied timestamp. -/
def rowOfUser (chat_id : Int) (u : User) (seen_ts : Int) : Row :=
  { chat_id := chat_id
  , user_id := u.id
  , username := u.username.getD ""
  , first_name := u.first_name.getD ""
  , last_name := u.last_name.getD ""
  , is_bot := if u.is_bot then 1 else 0
  , is_deleted := if u.is_deleted then 1 else 0
  , last_seen := some seen_ts }

/-- `upsert_user(chat_id, user, seen_ts=None)` (lines 97-124).  `user is
None` returns without touching the store; `seen_ts` defaults to
`int(time.time())`, passed here as `now`. -/
def upsert_user (chat_id : Int) (user : Option User) (seen_ts : Option Int)
    (now : Int) (db : List Row) : List Row :=
  match user with
  | none => db
  | some u => upsertRow (rowOfUser chat_id u (seen_ts.getD now)) db

/-- `mark_left` (lines 126-128): a leave is recorded as an `upsert_user`
with the current time, never as a deletion. -/
def mark_left (chat_id : Int) (user : Option User) (now : Int)
    (db : List Row) : List Row :=
  match user with
  | some u => upsert_user chat_id (some u) (some now) now db
  | none => db

/-- The member dict built from a fetched row (lines 139-147):
`bool(r[4])`, `bool(r[5])` on the stored flags. -/
def rowToMember (r : Row) : Member :=
  { user_id := r.user_id
  , username := r.username
  , first_name := r.first_name
  , last_name := r.last_name
  , is_bot := r.is_bot != 0
  , is_deleted := r.is_deleted != 0
  , last_seen := r.last_seen }

/-- `fetch_all_members(chat_id)` (lines 130-148).  The SELECT has no ORDER
BY, so the rows come back in storage order; `readFails` models the
`except` branch (lines 134-136), in which `rows = []` and the function
still returns normally. -/
def fetch_all_members (readFails : Bool) (db : List Row) (chat_id : Int) :
    List Member :=
  let rows := if readFails then [] else db.filter (fun r => r.chat_id == chat_id)
  rows.map rowToMember

/-- The inbound events that feed the store: group messages
(`message_logger`, lines 160-166), new members (`new_member_handler`,
lines 168-182, which upserts each user of the list) and left members
(`left_member_handler`, lines 184-192). -/
inductive BotEvent where
  | activity (chat_id : Int) (user : Option User) (now : Int)
  | joins (chat_id : Int) (users : List User) (now : Int)
  | leave (chat_id : Int) (user : Option User) (now : Int)

/-- Effect of one inbound event on the store.  Every handler passes
`int(time.time())` as the explicit timestamp. -/
def applyEvent (db : List Row) : BotEvent → List Row
  | .activity chat u now => upsert_user chat u (some now) now db
  | .joins chat us now =>
      us.foldl (fun d u => upsert_user chat (some u) (some now) now d) db
  | .leave chat u now => mark_left chat u now db

/-- Effect of a sequence of inbound events on the store. -/
def applyEvents (db : List Row) (es : List BotEvent) : List Row :=
  es.foldl applyEvent db

/-! ## Report engine (`generate_report`, lines 212-249) -/

/-- The four bucket lists computed by `generate_report` (lines 216-219). -/
structure Buckets where
  bots : List Member
  deleted : List Member
  online_ish : List Member
  offline_ish : List Member
deriving DecidableEq

/-- The bucket computation of `generate_report` (lines 213-219):
`threshold_sec = threshold_minutes * 60`; `bots` keeps every member with
`is_bot`, `deleted` every member with `is_deleted`, and the online/offline
lists keep non-bot, non-deleted members with a non-null `last_seen`,
split on `now - last_seen <= threshold_sec`. -/
def generate_report_buckets (threshold_minutes now : Int)
    (members : List Member) : Buckets :=
  let threshold_sec := threshold_minutes * 60
  { bots := members.filter (fun m => m.is_bot)
  , deleted := members.filter (fun m => m.is_deleted)
  , online_ish := members.filter (fun m =>
      match m.last_seen with
      | none => false
      | some ls => decide (now - ls ≤ threshold_sec) && !m.is_bot && !m.is_deleted)
  , offline_ish := members.filter (fun m =>
      match m.last_seen with
      | none => false
      | some ls => decide (now - ls > threshold_sec) && !m.is_bot && !m.is_deleted) }

/-- The threshold part of the report header (lines 224-229):
`threshold_minutes // 1440` days when `>= 1440`, else `// 60` hours when
`>= 60`, else raw minutes.  Python `//` is floor division, `Int.fdiv`. -/
def threshold_display (threshold_minutes : Int) : String :=
  if threshold_minutes ≥ 1440 then
    toString (Int.fdiv threshold_minutes 1440) ++ " Day(s)"
  else if threshold_minutes ≥ 60 then
    toString (Int.fdiv threshold_minutes 60) ++ " Hour(s)"
  else
    toString threshold_minutes ++ " Minutes"

/-! ## Threshold argument parsing (`cmd_cheak`, lines 284-293)

Strings are handled as their character lists so that every operation is
structurally recursive (Python's `str.lower`, `str.endswith` and `int`
are modelled on the ASCII fragment, which covers every token the spec and
the code discuss). -/

/-- Python `str.lower` on one ASCII character. -/
def asciiLowerChar (c : Char) : Char :=
  if 'A' ≤ c ∧ c ≤ 'Z' then Char.ofNat (c.toNat + 32) else c

/-- Python `str.lower` (ASCII fragment), on the character list. -/
def asciiLower (cs : List Char) : List Char := cs.map asciiLowerChar

/-- The ASCII whitespace stripped by Python `int(str)`. -/
def isPySpace (c : Char) : Bool :=
  c = ' ' || c = '\t' || c = '\n' || c = '\r' || c = '\x0b' || c = '\x0c'

/-- Python `str.strip()` on the character list. -/
def pyStrip (cs : List Char) : List Char :=
  ((cs.dropWhile isPySpace).reverse.dropWhile isPySpace).reverse

/-- ASCII decimal digit test, as used by Python `int` on the default base. -/
def isAsciiDigit (c : Char) : Bool := '0' ≤ c && c ≤ '9'

/-- Digit run after the first digit, allowing single underscores between
digits as Python `int` does ("1_0" parses, "1__0" and "1_" do not). -/
def parseDigits : List Char → Nat → Option Nat
  | [], acc => some acc
  | '_' :: c :: rest, acc =>
      if isAsciiDigit c then parseDigits rest (acc * 10 + (c.toNat - 48))
      else none
  | c :: rest, acc =>
      if isAsciiDigit c then parseDigits rest (acc * 10 + (c.toNat - 48))
      else none

/-- Unsigned part of Python `int(str)`: at least one digit, which must come
first (no leading underscore). -/
def pyIntCore : List Char → Option Int
  | [] => none
  | c :: rest =>
      if isAsciiDigit c then (parseDigits rest (c.toNat - 48)).map Int.ofNat
      else none

/-- Python `int(str)` on base 10: strip surrounding whitespace, then an
optional sign followed by digits; `none` models the `ValueError` caught
by `cmd_cheak`. -/
def pyIntChars (cs0 : List Char) : Option Int :=
  match pyStrip cs0 with
  | '+' :: rest => pyIntCore rest
  | '-' :: rest => (pyIntCore rest).map (fun n => -n)
  | cs => pyIntCore cs

/-- Python `int(str)` on a string. -/
def pyInt (s : String) : Option Int := pyIntChars s.toList

/-- The threshold-argument parsing of `cmd_cheak` (lines 286-293): the
token is lowercased; `arg.endswith("d")` on the single-character suffix is
exactly "the last character is 'd'"; a trailing d means days (integer
prefix `arg[:-1]` times 1440), otherwise the whole token is minutes; any
`int` failure falls back to 30. -/
def parse_threshold_arg (arg0 : String) : Int :=
  let arg := asciiLower arg0.toList
  if arg.getLast? = some 'd' then
    match pyIntChars arg.dropLast with
    | some n => n * 1440
    | none => 30
  else
    match pyIntChars arg with
    | some n => n
    | none => 30

/-! ## Export rows (`cmd_export`, lines 352-361) -/

/-- Two-digit zero padding, as in `datetime.isoformat` fields. -/
def pad2 (n : Int) : String :=
  if n < 10 then "0" ++ toString n else toString n

/-- Four-digit zero padding for the year, as in `datetime.isoformat`. -/
def pad4 (n : Int) : String :=
  if n < 10 then "000" ++ toString n
  else if n < 100 then "00" ++ toString n
  else if n < 1000 then "0" ++ toString n
  else toString n

/-- Proleptic-Gregorian date from a count of days since 1970-01-01
(the civil-from-days algorithm used by calendar conversions). -/
def civilFromDays (z0 : Int) : Int × Int × Int :=
  let z := z0 + 719468
  let era := Int.fdiv z 146097
  let doe := z - era * 146097
  let yoe := Int.fdiv (doe - Int.fdiv doe 1460 + Int.fdiv doe 36524 - Int.fdiv doe 146096) 365
  let y := yoe + era * 400
  let doy := doe - (365 * yoe + Int.fdiv yoe 4 - Int.fdiv yoe 100)
  let mp := Int.fdiv (5 * doy + 2) 153
  let d := doy - Int.fdiv (153 * mp + 2) 5 + 1
  let m := mp + (if mp < 10 then 3 else -9)
  (y + (if m ≤ 2 then 1 else 0), m, d)

/-- `datetime.utcfromtimestamp(ts).isoformat()` for an integral epoch
timestamp: the UTC ISO-8601 string `YYYY-MM-DDTHH:MM:SS` (microseconds are
zero, so `isoformat` omits them).  Python `divmod` floors, hence
`Int.fdiv` / `Int.fmod`. -/
def utcIso (ts : Int) : String :=
  let days := Int.fdiv ts 86400
  let secs := Int.fmod ts 86400
  let ymd := civilFromDays days
  pad4 ymd.1 ++ "-" ++ pad2 ymd.2.1 ++ "-" ++ pad2 ymd.2.2 ++ "T" ++
    pad2 (Int.fdiv secs 3600) ++ ":" ++ pad2 (Int.fdiv (Int.fmod secs 3600) 60) ++
    ":" ++ pad2 (Int.fmod secs 60)

/-- One CSV data row of `cmd_export` (line 361): flags re-serialized with
`int(...)`. -/
structure ExportRow where
  user_id : Int
  username : String
  first_name : String
  last_name : String
  is_bot : Int
  is_deleted : Int
  last_seen_iso : String
deriving DecidableEq

/-- The row written for one member (lines 360-361).  Note the guard is
`if m["last_seen"]`, Python truthiness: both `None` and `0` yield the
empty string. -/
def exportRow (m : Member) : ExportRow :=
  { user_id := m.user_id
  , username := m.username
  , first_name := m.first_name
  , last_name := m.last_name
  , is_bot := if m.is_bot then 1 else 0
  , is_deleted := if m.is_deleted then 1 else 0
  , last_seen_iso :=
      match m.last_seen with
      | none => ""
      | some ls => if ls = 0 then "" else utcIso ls }

/-- All data rows of the export, one per member in snapshot order
(lines 359-361). -/
def exportRows (members : List Member) : List ExportRow :=
  members.map exportRow

/-! ## Spec-side definitions and concrete test data -/

/-- Modelled from the spec: the canonical order of section 4.2, which the
code does not implement (no ORDER BY, order-preserving filters); written
from the spec's words for comparison with the code.  `last_seen`
descending, absent `last_seen` sorts last, ties broken by `user_id`
ascending. -/
def canonicalLe (a b : Member) : Bool :=
  match a.last_seen, b.last_seen with
  | some x, some y => decide (x > y ∨ (x = y ∧ a.user_id ≤ b.user_id))
  | some _, none => true
  | none, some _ => false
  | none, none => decide (a.user_id ≤ b.user_id)

/-- A list is in the spec's canonical order when every earlier element is
`canonicalLe` every later one. -/
def canonicallyOrdered (l : List Member) : Prop :=
  l.Pairwise (fun a b => canonicalLe a b = true)

/-- A plain (non-bot, non-deleted) member with a given id and `last_seen`,
used as concrete test data. -/
def memAt (uid : Int) (ls : Option Int) : Member :=
  { user_id := uid, username := "", first_name := "", last_name := ""
  , is_bot := false, is_deleted := false, last_seen := ls }

/-- A member that is both a bot and deleted, with a recent `last_seen`. -/
def memBotDeleted : Member :=
  { user_id := 7, username := "botdel", first_name := "", last_name := ""
  , is_bot := true, is_deleted := true, last_seen := some 990 }

/-- Concrete user for the upsert scenarios. -/
def demoU1 : User :=
  { id := 5, username := some "alice", first_name := some "A"
  , last_name := none, is_bot := false, is_deleted := false }

/-- A second concrete user with the same id as `demoU1` and entirely
different attributes. -/
def demoU2 : User :=
  { id := 5, username := none, first_name := some "B"
  , last_name := some "Bee", is_bot := true, is_deleted := false }

/-- Concrete user first seen early (timestamp 10). -/
def uEarly : User :=
  { id := 1, username := some "early", first_name := none
  , last_name := none, is_bot := false, is_deleted := false }

/-- Concrete user seen later (timestamp 20). -/
def uLate : User :=
  { id := 2, username := some "late", first_name := none
  , last_name := none, is_bot := false, is_deleted := false }

/-- Store state after upserting `uEarly` (seen 10) and then `uLate`
(seen 20) into chat 9: the storage order is insertion order, so the row
with the smaller `last_seen` comes first. -/
def db5 : List Row :=
  upsert_user 9 (some uLate) (some 20) 20
    (upsert_user 9 (some uEarly) (some 10) 10 [])

/-! ## Store lemmas -/

lemma rowKey_eq_iff (x r : Row) :
    rowKey x = rowKey r ↔ (x.chat_id = r.chat_id ∧ x.user_id = r.user_id) := by
  simp [rowKey, Prod.ext_iff]

lemma mem_dbKeys_upsertRow (r : Row) (k : Int × Int) (db : List Row) :
    k ∈ dbKeys (upsertRow r db) ↔ k = rowKey r ∨ k ∈ dbKeys db := by
  induction db with
  | nil => simp [upsertRow, dbKeys]
  | cons x xs ih =>
    rw [upsertRow]
    by_cases hc : x.chat_id = r.chat_id ∧ x.user_id = r.user_id
    · rw [if_pos hc]
      have hkey : rowKey x = rowKey r := (rowKey_eq_iff x r).mpr hc
      simp [dbKeys, hkey]
    · rw [if_neg hc]
      simp only [dbKeys, List.map_cons, List.mem_cons] at *
      rw [ih]
      tauto

lemma dbKeysNodup_upsertRow (r : Row) (db : List Row) (h : dbKeysNodup db) :
    dbKeysNodup (upsertRow r db) := by
  induction db with
  | nil => simp [upsertRow, dbKeysNodup, dbKeys]
  | cons x xs ih =>
    rw [dbKeysNodup, dbKeys, List.map_cons, List.nodup_cons] at h
    obtain ⟨hx, hxs⟩ := h
    rw [upsertRow]
    by_cases hc : x.chat_id = r.chat_id ∧ x.user_id = r.user_id
    · rw [if_pos hc]
      have hkey : rowKey x = rowKey r := (rowKey_eq_iff x r).mpr hc
      rw [dbKeysNodup, dbKeys, List.map_cons, List.nodup_cons]
      exact ⟨hkey ▸ hx, hxs⟩
    · rw [if_neg hc]
      rw [dbKeysNodup, dbKeys, List.map_cons, List.nodup_cons]
      refine ⟨?_, ih hxs⟩
      intro hmem
      rcases (mem_dbKeys_upsertRow r (rowKey x) xs).mp hmem with h1 | h2
      · exact hc ((rowKey_eq_iff x r).mp h1)
      · exact hx h2

lemma filter_key_eq_nil (k : Int × Int) (db : List Row) (h : k ∉ dbKeys db) :
    db.filter (fun x => decide (rowKey x = k)) = [] := by
  rw [List.filter_eq_nil_iff]
  intro a ha
  simp only [decide_eq_true_eq]
  intro heq
  exact h (heq ▸ List.mem_map_of_mem rowKey ha)

lemma filter_key_upsertRow (r : Row) (db : List Row) (h : dbKeysNodup db) :
    (upsertRow r db).filter (fun x => decide (rowKey x = rowKey r)) = [r] := by
  induction db with
  | nil => simp [upsertRow, List.filter]
  | cons x xs ih =>
    rw [dbKeysNodup, dbKeys, List.map_cons, List.nodup_cons] at h
    obtain ⟨hx, hxs⟩ := h
    rw [upsertRow]
    by_cases hc : x.chat_id = r.chat_id ∧ x.user_id = r.user_id
    · rw [if_pos hc]
      have hkey : rowKey x = rowKey r := (rowKey_eq_iff x r).mpr hc
      rw [List.filter_cons]
      simp only [decide_eq_true_eq, if_true]
      rw [filter_key_eq_nil (rowKey r) xs (hkey ▸ hx)]
    · rw [if_neg hc]
      have hkey : ¬(rowKey x = rowKey r) := fun h => hc ((rowKey_eq_iff x r).mp h)
      rw [List.filter_cons]
      simp only [decide_eq_true_eq]
      rw [if_neg hkey]
      exact ih hxs

lemma filter_other_upsertRow (r : Row) (k : Int × Int) (db : List Row)
    (h : rowKey r ≠ k) :
    (upsertRow r db).filter (fun x => decide (rowKey x = k)) =
      db.filter (fun x => decide (rowKey x = k)) := by
  induction db with
  | nil =>
    rw [upsertRow, List.filter_cons]
    simp only [decide_eq_true_eq]
    rw [if_neg h]
  | cons x xs ih =>
    rw [upsertRow]
    by_cases hc : x.chat_id = r.chat_id ∧ x.user_id = r.user_id
    · rw [if_pos hc]
      have hkey : rowKey x = rowKey r := (rowKey_eq_iff x r).mpr hc
      have hxk : rowKey x ≠ k := by rw [hkey]; exact h
      rw [List.filter_cons, List.filter_cons]
      simp only [decide_eq_true_eq]
      rw [if_neg h, if_neg hxk]
    · rw [if_neg hc]
      rw [List.filter_cons, List.filter_cons, ih]

lemma dbKeysNodup_upsert_user (chat : Int) (u : Option User) (ts : Option Int)
    (now : Int) (db : List Row) (h : dbKeysNodup db) :
    dbKeysNodup (upsert_user chat u ts now db) := by
  cases u with
  | none => exact h
  | some v => exact dbKeysNodup_upsertRow _ db h

lemma mem_dbKeys_upsert_user (chat : Int) (u : Option User) (ts : Option Int)
    (now : Int) (db : List Row) (k : Int × Int) (h : k ∈ dbKeys db) :
    k ∈ dbKeys (upsert_user chat u ts now db) := by
  cases u with
  | none => exact h
  | some v => exact (mem_dbKeys_upsertRow _ k db).mpr (Or.inr h)

lemma dbKeysNodup_applyEvent (db : List Row) (e : BotEvent)
    (h : dbKeysNodup db) : dbKeysNodup (applyEvent db e) := by
  cases e with
  | activity chat u now => exact dbKeysNodup_upsert_user chat u (some now) now db h
  | joins chat us now =>
    induction us generalizing db with
    | nil => exact h
    | cons v vs ih =>
      exact ih (upsert_user chat (some v) (some now) now db)
        (dbKeysNodup_upsert_user chat (some v) (some now) now db h)
  | leave chat u now =>
    cases u with
    | none => exact h
    | some v => exact dbKeysNodup_upsert_user chat (some v) (some now) now db h

lemma mem_dbKeys_applyEvent (db : List Row) (e : BotEvent) (k : Int × Int)
    (h : k ∈ dbKeys db) : k ∈ dbKeys (applyEvent db e) := by
  cases e with
  | activity chat u now => exact mem_dbKeys_upsert_user chat u (some now) now db k h
  | joins chat us now =>
    induction us generalizing db with
    | nil => exact h
    | cons v vs ih =>
      exact ih (upsert_user chat (some v) (some now) now db)
        (mem_dbKeys_upsert_user chat (some v) (some now) now db k h)
  | leave chat u now =>
    cases u with
    | none => exact h
    | some v => exact mem_dbKeys_upsert_user chat (some v) (some now) now db k h

lemma dbKeysNodup_applyEvents (db : List Row) (es : List BotEvent)
    (h : dbKeysNodup db) : dbKeysNodup (applyEvents db es) := by
  induction es generalizing db with
  | nil => exact h
  | cons e es ih => exact ih (applyEvent db e) (dbKeysNodup_applyEvent db e h)

lemma mem_dbKeys_applyEvents (db : List Row) (es : List BotEvent)
    (k : Int × Int) (h : k ∈ dbKeys db) : k ∈ dbKeys (applyEvents db es) := by
  induction es generalizing db with
  | nil => exact h
  | cons e es ih => exact ih (applyEvent db e) (mem_dbKeys_applyEvent db e k h)

/-! ## Report and export lemmas -/

lemma mem_online_ish_iff (th now : Int) (ms : List Member) (m : Member)
    (ls : Int) (hls : m.last_seen = some ls) :
    m ∈ (generate_report_buckets th now ms).online_ish ↔
      m ∈ ms ∧ now - ls ≤ th * 60 ∧ m.is_bot = false ∧ m.is_deleted = false := by
  simp [generate_report_buckets, List.mem_filter, hls]
  tauto

lemma mem_offline_ish_iff (th now : Int) (ms : List Member) (m : Member)
    (ls : Int) (hls : m.last_seen = some ls) :
    m ∈ (generate_report_buckets th now ms).offline_ish ↔
      m ∈ ms ∧ now - ls > th * 60 ∧ m.is_bot = false ∧ m.is_deleted = false := by
  simp [generate_report_buckets, List.mem_filter, hls]
  tauto

lemma utcIso_ne_empty (ts : Int) : utcIso ts ≠ "" := by
  intro h
  have hlen := congrArg String.length h
  simp only [utcIso, String.length_append] at hlen
  have h1 : ("-" : String).length = 1 := rfl
  have h2 : ("T" : String).length = 1 := rfl
  have h3 : (":" : String).length = 1 := rfl
  have h4 : ("" : String).length = 0 := rfl
  simp only [h1, h2, h3, h4] at hlen
  omega

/-! ## Claim theorems -/

/-- C1, counterexample: the claim says a record with `is_bot = true` and
`is_deleted = true` is placed in the `bots` bucket only and appears in no
other bucket; but `generate_report` computes `deleted` as a plain filter
on `is_deleted` (line 217), so such a record appears in `deleted` too. -/
theorem classify_bot_deleted_counterexample :
    memBotDeleted.is_bot = true ∧ memBotDeleted.is_deleted = true ∧
    memBotDeleted ∈ (generate_report_buckets 30 1000 [memBotDeleted]).bots ∧
    memBotDeleted ∈ (generate_report_buckets 30 1000 [memBotDeleted]).deleted := by
  refine ⟨rfl, rfl, ?_, ?_⟩ <;> decide

/-- C1 (amended): `classify` places every member with `is_bot` in `bots`
and every member with `is_deleted` in `deleted` — so a record with both
flags appears in both of those buckets; the online/offline buckets contain
only members with neither flag, and no record is in both online and
offline.  Thus `bots`, `online_ish` and `offline_ish` are pairwise
disjoint, as are `deleted`, `online_ish` and `offline_ish`, but `bots` and
`deleted` overlap on bot-and-deleted records. -/
theorem classify_buckets_flags (th now : Int) (ms : List Member) (m : Member) :
    (m ∈ ms → m.is_bot = true → m ∈ (generate_report_buckets th now ms).bots) ∧
    (m ∈ ms → m.is_deleted = true →
      m ∈ (generate_report_buckets th now ms).deleted) ∧
    (m ∈ (generate_report_buckets th now ms).online_ish →
      m.is_bot = false ∧ m.is_deleted = false) ∧
    (m ∈ (generate_report_buckets th now ms).offline_ish →
      m.is_bot = false ∧ m.is_deleted = false) ∧
    ¬(m ∈ (generate_report_buckets th now ms).online_ish ∧
      m ∈ (generate_report_buckets th now ms).offline_ish) := by
  refine ⟨?_, ?_, ?_, ?_, ?_⟩
  · intro hm hb
    simp [generate_report_buckets, List.mem_filter, hm, hb]
  · intro hm hd
    simp [generate_report_buckets, List.mem_filter, hm, hd]
  · intro hm
    cases hls : m.last_seen with
    | none => simp [generate_report_buckets, List.mem_filter, hls] at hm
    | some ls =>
      have := (mem_online_ish_iff th now ms m ls hls).mp hm
      exact ⟨this.2.2.1, this.2.2.2⟩
  · intro hm
    cases hls : m.last_seen with
    | none => simp [generate_report_buckets, List.mem_filter, hls] at hm
    | some ls =>
      have := (mem_offline_ish_iff th now ms m ls hls).mp hm
      exact ⟨this.2.2.1, this.2.2.2⟩
  · rintro ⟨h1, h2⟩
    cases hls : m.last_seen with
    | none => simp [generate_report_buckets, List.mem_filter, hls] at h1
    | some ls =>
      have a1 := (mem_online_ish_iff th now ms m ls hls).mp h1
      have a2 := (mem_offline_ish_iff th now ms m ls hls).mp h2
      omega

/-- C1, witness for the amended theorem at a concrete bot-and-deleted
record. -/
theorem classify_buckets_flags_witness :
    memBotDeleted ∈ (generate_report_buckets 30 1000 [memBotDeleted]).bots ∧
    memBotDeleted ∈ (generate_report_buckets 30 1000 [memBotDeleted]).deleted :=
  ⟨(classify_buckets_flags 30 1000 [memBotDeleted] memBotDeleted).1
      (by decide) rfl,
   (classify_buckets_flags 30 1000 [memBotDeleted] memBotDeleted).2.1
      (by decide) rfl⟩

/-- C2: two successive upserts for the same (chat_id, user_id) key leave
exactly one record for that key, and every one of its fields (username,
first_name, last_name, is_bot, is_deleted, last_seen) is the value
supplied by the second upsert.  `t1` and `t2` are unconstrained, so this
holds in particular when the second `seen_at` (`t2`) is chronologically
earlier than the first (`t1`): last-write-wins, no max-timestamp
reconciliation (ON CONFLICT DO UPDATE sets every column from `excluded`,
lines 114-120). -/
theorem upsert_last_write_wins (db : List Row) (chat : Int) (u1 u2 : User)
    (t1 t2 now1 now2 : Int) (_hid : u1.id = u2.id) (hdb : dbKeysNodup db) :
    (upsert_user chat (some u2) (some t2) now2
        (upsert_user chat (some u1) (some t1) now1 db)).filter
      (fun x => decide (rowKey x = (chat, u2.id))) =
    [{ chat_id := chat, user_id := u2.id
     , username := u2.username.getD ""
     , first_name := u2.first_name.getD ""
     , last_name := u2.last_name.getD ""
     , is_bot := if u2.is_bot then 1 else 0
     , is_deleted := if u2.is_deleted then 1 else 0
     , last_seen := some t2 }] := by
  have h1 : dbKeysNodup (upsert_user chat (some u1) (some t1) now1 db) :=
    dbKeysNodup_upsert_user chat (some u1) (some t1) now1 db hdb
  exact filter_key_upsertRow (rowOfUser chat u2 t2) _ h1

/-- C2, witness: `demoU1` and `demoU2` share id 5; the second upsert
carries `seen_at = 50`, earlier than the first's 100, yet the single
surviving record holds exactly the second call's attributes. -/
theorem upsert_last_write_wins_witness :
    (50 : Int) < 100 ∧
    (upsert_user 1 (some demoU2) (some 50) 0
        (upsert_user 1 (some demoU1) (some 100) 0 [])).filter
      (fun x => decide (rowKey x = (1, demoU2.id))) =
    [{ chat_id := 1, user_id := demoU2.id
     , username := demoU2.username.getD ""
     , first_name := demoU2.first_name.getD ""
     , last_name := demoU2.last_name.getD ""
     , is_bot := if demoU2.is_bot then 1 else 0
     , is_deleted := if demoU2.is_deleted then 1 else 0
     , last_seen := some 50 }] :=
  ⟨by decide,
   upsert_last_write_wins [] 1 demoU1 demoU2 100 50 0 0 rfl
     (by simp [dbKeysNodup, dbKeys])⟩

/-- C3: starting from any store state whose (chat_id, user_id) keys are
unique, any sequence of activity, join and leave events preserves key
uniqueness (at most one record per pair, the table's PRIMARY KEY) and
never removes a key; moreover a leave event for an existing or new user
leaves exactly one record for that key, freshly upserted with the leave
time (`mark_left` calls `upsert_user`, lines 126-128). -/
theorem store_unique_keys_never_deleted (db : List Row) (es : List BotEvent)
    (h : dbKeysNodup db) :
    dbKeysNodup (applyEvents db es) ∧
    (∀ k ∈ dbKeys db, k ∈ dbKeys (applyEvents db es)) ∧
    (∀ (chat : Int) (u : User) (now : Int),
      (applyEvent db (BotEvent.leave chat (some u) now)).filter
        (fun x => decide (rowKey x = (chat, u.id))) = [rowOfUser chat u now]) := by
  refine ⟨dbKeysNodup_applyEvents db es h,
    fun k hk => mem_dbKeys_applyEvents db es k hk, ?_⟩
  intro chat u now
  exact filter_key_upsertRow (rowOfUser chat u now) db h

/-- C3, witness at a concrete event sequence (activity, a join of two
users, then a leave) starting from the empty store. -/
theorem store_unique_keys_never_deleted_witness :
    dbKeysNodup (applyEvents []
      [BotEvent.activity 1 (some demoU1) 10,
       BotEvent.joins 1 [uEarly, uLate] 20,
       BotEvent.leave 1 (some demoU1) 30]) :=
  (store_unique_keys_never_deleted []
    [BotEvent.activity 1 (some demoU1) 10,
     BotEvent.joins 1 [uEarly, uLate] 20,
     BotEvent.leave 1 (some demoU1) 30]
    (by simp [dbKeysNodup, dbKeys])).1

/-- C4: for a non-bot, non-deleted member with `last_seen` present, the
boundary is inclusive: the member is in `online_ish` exactly when
`now - last_seen <= threshold_minutes * 60` and in `offline_ish` exactly
when `now - last_seen > threshold_minutes * 60` (lines 218-219). -/
theorem classify_threshold_inclusive (th now ls : Int) (ms : List Member)
    (m : Member) (hmem : m ∈ ms) (hbot : m.is_bot = false)
    (hdel : m.is_deleted = false) (hls : m.last_seen = some ls) :
    (m ∈ (generate_report_buckets th now ms).online_ish ↔ now - ls ≤ th * 60) ∧
    (m ∈ (generate_report_buckets th now ms).offline_ish ↔ now - ls > th * 60) := by
  constructor
  · rw [mem_online_ish_iff th now ms m ls hls]
    constructor
    · exact fun h => h.2.1
    · exact fun h => ⟨hmem, h, hbot, hdel⟩
  · rw [mem_offline_ish_iff th now ms m ls hls]
    constructor
    · exact fun h => h.2.1
    · exact fun h => ⟨hmem, h, hbot, hdel⟩

/-- C4, witness at the spec's boundary example: threshold 60 minutes,
`now = 10000`; `last_seen = 6400` gives `now - last_seen = 3600` (online),
`last_seen = 6399` gives 3601 (offline). -/
theorem classify_threshold_inclusive_witness :
    memAt 11 (some 6400) ∈
      (generate_report_buckets 60 10000
        [memAt 11 (some 6400), memAt 12 (some 6399)]).online_ish ∧
    memAt 12 (some 6399) ∈
      (generate_report_buckets 60 10000
        [memAt 11 (some 6400), memAt 12 (some 6399)]).offline_ish :=
  ⟨((classify_threshold_inclusive 60 10000 6400
      [memAt 11 (some 6400), memAt 12 (some 6399)] (memAt 11 (some 6400))
      (by decide) rfl rfl rfl).1).mpr (by decide),
   ((classify_threshold_inclusive 60 10000 6399
      [memAt 11 (some 6400), memAt 12 (some 6399)] (memAt 12 (some 6399))
      (by decide) rfl rfl rfl).2).mpr (by decide)⟩

/-- C5, counterexample: the claim says the snapshot and every bucket are
sorted by `last_seen` descending (ties by `user_id`); but the SELECT of
`fetch_all_members` has no ORDER BY and the bucket comprehensions preserve
input order, so after upserting a user seen at 10 and then one seen at 20
the snapshot (and its online bucket at threshold 60, now 25) lists the
older record first — not canonically ordered. -/
theorem snapshot_order_counterexample :
    ¬ canonicallyOrdered (fetch_all_members false db5 9) ∧
    ¬ canonicallyOrdered
        ((generate_report_buckets 60 25 (fetch_all_members false db5 9)).online_ish) := by
  constructor <;> · unfold canonicallyOrdered; decide

/-- C5 (amended): the snapshot and the buckets are returned in storage
order, not in the spec's canonical order: each bucket of
`generate_report` is an order-preserving sublist of the member list it was
given, and the snapshot is an order-preserving sublist of the store's
rows (converted to member dicts) in storage order.  No sort is applied. -/
theorem classify_and_snapshot_preserve_order (th now : Int)
    (ms : List Member) (db : List Row) (chat : Int) :
    List.Sublist (generate_report_buckets th now ms).bots ms ∧
    List.Sublist (generate_report_buckets th now ms).deleted ms ∧
    List.Sublist (generate_report_buckets th now ms).online_ish ms ∧
    List.Sublist (generate_report_buckets th now ms).offline_ish ms ∧
    List.Sublist (fetch_all_members false db chat) (db.map rowToMember) := by
  refine ⟨List.filter_sublist ms, List.filter_sublist ms,
    List.filter_sublist ms, List.filter_sublist ms, ?_⟩
  exact List.Sublist.map rowToMember (List.filter_sublist db)

/-- C6, counterexample: the claim says `last_seen_iso` is empty iff
`last_seen` is absent; but the guard on line 360 is Python truthiness
(`if m["last_seen"]`), so a present `last_seen` equal to 0 also renders
as the empty string. -/
theorem export_zero_iso_counterexample :
    (memAt 3 (some 0)).last_seen = some 0 ∧
    (exportRow (memAt 3 (some 0))).last_seen_iso = "" := by
  exact ⟨rfl, rfl⟩

/-- C6 (amended): the export emits exactly one row per member of the
snapshot (equal lengths), and a row's `last_seen_iso` is the empty string
iff the member's `last_seen` is absent or equal to 0 (Python truthiness of
the guard on line 360); for any other present value it is the UTC ISO-8601
rendering of the epoch value. -/
theorem export_rows_spec (members : List Member) (m : Member) :
    (exportRows members).length = members.length ∧
    ((exportRow m).last_seen_iso = "" ↔
      m.last_seen = none ∨ m.last_seen = some 0) ∧
    (∀ ls : Int, m.last_seen = some ls → ls ≠ 0 →
      (exportRow m).last_seen_iso = utcIso ls) := by
  refine ⟨List.length_map members exportRow, ?_, ?_⟩
  · cases h : m.last_seen with
    | none => simp [exportRow, h]
    | some ls =>
      by_cases h0 : ls = 0
      · simp [exportRow, h, h0]
      · simp [exportRow, h, h0, utcIso_ne_empty ls]
  · intro ls h h0
    simp [exportRow, h, h0]

/-- C6, witness: one-row export of a zero-timestamp member, and the ISO
rendering of a member last seen at epoch 1000000000. -/
theorem export_rows_spec_witness :
    (exportRows [memAt 3 (some 0)]).length = 1 ∧
    (exportRow (memAt 4 (some 1000000000))).last_seen_iso = utcIso 1000000000 :=
  ⟨(export_rows_spec [memAt 3 (some 0)] (memAt 3 (some 0))).1,
   (export_rows_spec [] (memAt 4 (some 1000000000))).2.2 1000000000 rfl
     (by decide)⟩

/-- C7: threshold-token parsing of `cmd_cheak` (lines 284-293): a token
whose lowercased form ends in "d" parses as its integer prefix times 1440;
any other token parses as an integer minute count; any `int` failure
(non-numeric prefix, empty token) yields 30.  Concretely
`parse("2d") = parse("2D") = 2880`, `parse("45") = 45`,
`parse("bogus") = 30`, `parse("") = 30`. -/
theorem parse_threshold_spec :
    (∀ (s : String) (n : Int), (asciiLower s.toList).getLast? = some 'd' →
      pyIntChars (asciiLower s.toList).dropLast = some n →
      parse_threshold_arg s = n * 1440) ∧
    (∀ s : String, (asciiLower s.toList).getLast? = some 'd' →
      pyIntChars (asciiLower s.toList).dropLast = none →
      parse_threshold_arg s = 30) ∧
    (∀ (s : String) (n : Int), (asciiLower s.toList).getLast? ≠ some 'd' →
      pyIntChars (asciiLower s.toList) = some n → parse_threshold_arg s = n) ∧
    (∀ s : String, (asciiLower s.toList).getLast? ≠ some 'd' →
      pyIntChars (asciiLower s.toList) = none → parse_threshold_arg s = 30) ∧
    parse_threshold_arg "2d" = 2880 ∧ parse_threshold_arg "2D" = 2880 ∧
    parse_threshold_arg "45" = 45 ∧ parse_threshold_arg "bogus" = 30 ∧
    parse_threshold_arg "" = 30 := by
  refine ⟨?_, ?_, ?_, ?_, by decide, by decide, by decide, by decide, by decide⟩
  · intro s n hd hp
    simp only [parse_threshold_arg]
    rw [if_pos hd, hp]
  · intro s hd hp
    simp only [parse_threshold_arg]
    rw [if_pos hd, hp]
  · intro s n hd hp
    simp only [parse_threshold_arg]
    rw [if_neg hd, hp]
  · intro s hd hp
    simp only [parse_threshold_arg]
    rw [if_neg hd, hp]

/-- C7, witness for the three hypothetical clauses at concrete tokens:
"3d" (day suffix), "77" (plain minutes), "xd" (day suffix with a
non-numeric prefix). -/
theorem parse_threshold_spec_witness :
    parse_threshold_arg "3d" = 3 * 1440 ∧ parse_threshold_arg "77" = 77 ∧
    parse_threshold_arg "xd" = 30 :=
  ⟨parse_threshold_spec.1 "3d" 3 (by decide) (by decide),
   parse_threshold_spec.2.2.1 "77" 77 (by decide) (by decide),
   parse_threshold_spec.2.1 "xd" (by decide) (by decide)⟩

/-- C7, auxiliary sanity check that the modelled `int` follows Python on
signs, whitespace and malformed underscore placement. -/
theorem pyInt_examples :
    pyInt "45" = some 45 ∧ pyInt " +4_5 " = some 45 ∧ pyInt "-12" = some (-12) ∧
    pyInt "bogus" = none ∧ pyInt "" = none ∧ pyInt "1_" = none ∧
    pyInt "_1" = none ∧ pyInt "1__2" = none := by
  refine ⟨?_, ?_, ?_, ?_, ?_, ?_, ?_, ?_⟩ <;> decide

/-- C8: the report header displays the threshold with integer floor
division, discarding remainders (lines 224-229): at least 1440 minutes it
shows `threshold // 1440` Day(s), else at least 60 it shows
`threshold // 60` Hour(s), else the raw minute count; so 1439 renders as
"23 Hour(s)", 1440 as "1 Day(s)", 90 as "1 Hour(s)" and 59 as
"59 Minutes". -/
theorem threshold_display_spec :
    (∀ t : Int, 1440 ≤ t →
      threshold_display t = toString (Int.fdiv t 1440) ++ " Day(s)") ∧
    (∀ t : Int, 60 ≤ t → t < 1440 →
      threshold_display t = toString (Int.fdiv t 60) ++ " Hour(s)") ∧
    (∀ t : Int, t < 60 → threshold_display t = toString t ++ " Minutes") ∧
    threshold_display 1439 = "23 Hour(s)" ∧
    threshold_display 1440 = "1 Day(s)" ∧
    threshold_display 90 = "1 Hour(s)" ∧
    threshold_display 59 = "59 Minutes" := by
  refine ⟨?_, ?_, ?_, by decide, by decide, by decide, by decide⟩
  · intro t ht
    rw [threshold_display, if_pos ht]
  · intro t h60 h1440
    rw [threshold_display, if_neg (by omega), if_pos h60]
  · intro t ht
    rw [threshold_display, if_neg (by omega), if_neg (by omega)]

/-- C8, witness for the three display clauses at 2880, 61 and 5 minutes. -/
theorem threshold_display_spec_witness :
    threshold_display 2880 = toString (Int.fdiv (2880 : Int) 1440) ++ " Day(s)" ∧
    threshold_display 61 = toString (Int.fdiv (61 : Int) 60) ++ " Hour(s)" ∧
    threshold_display 5 = toString (5 : Int) ++ " Minutes" :=
  ⟨threshold_display_spec.1 2880 (by decide),
   threshold_display_spec.2.1 61 (by decide) (by decide),
   threshold_display_spec.2.2.1 5 (by decide)⟩

/-- C9: when the storage read fails (the `except` branch of
`fetch_all_members`, lines 134-136, which logs the condition and sets
`rows = []`), the snapshot is the empty list for every store state and
chat — the function returns normally instead of propagating the
exception. -/
theorem fetch_fail_returns_empty (db : List Row) (chat : Int) :
    fetch_all_members true db chat = [] := rfl

/-- C10: an upsert touches only its own (chat_id, user_id) key — the
records of every other key are unchanged, with multiplicity and order —
and an upsert with a null/absent user leaves the whole store unchanged
(`if user is None: return`, lines 98-99). -/
theorem upsert_frame_and_noop :
    (∀ (chat : Int) (ts : Option Int) (now : Int) (db : List Row),
      upsert_user chat none ts now db = db) ∧
    (∀ (chat : Int) (u : User) (ts : Option Int) (now : Int) (db : List Row)
      (c2 u2 : Int), ¬(c2 = chat ∧ u2 = u.id) →
      (upsert_user chat (some u) ts now db).filter
        (fun x => decide (rowKey x = (c2, u2))) =
      db.filter (fun x => decide (rowKey x = (c2, u2)))) := by
  constructor
  · intro chat ts now db
    rfl
  · intro chat u ts now db c2 u2 hne
    have hkey : rowKey (rowOfUser chat u (ts.getD now)) ≠ (c2, u2) := by
      simp only [rowKey, rowOfUser, ne_eq, Prod.mk.injEq, not_and]
      intro h1 h2
      exact hne ⟨h1.symm, h2.symm⟩
    exact filter_other_upsertRow _ _ db hkey

/-- C10, witness: upserting user 5 into chat 1 leaves the records of key
(2, 5) untouched, and a `None` upsert is a no-op on a concrete store. -/
theorem upsert_frame_and_noop_witness :
    upsert_user 1 none (some 5) 7 db5 = db5 ∧
    (upsert_user 1 (some demoU1) (some 50) 0 db5).filter
      (fun x => decide (rowKey x = (2, 5))) =
    db5.filter (fun x => decide (rowKey x = (2, 5))) :=
  ⟨upsert_frame_and_noop.1 1 (some 5) 7 db5,
   upsert_frame_and_noop.2 1 demoU1 (some 50) 0 db5 2 5 (by decide)⟩
